import Mathlib

/-!
Verification model of `grabr.py` (`MenuGrabber`): the slug normalizer,
the menu-item extractor, the image downloader and the per-item persistence
writer, embedded shallowly as pure Lean functions.  Effects (HTTP, file
system) are made explicit: the network is a function from URL to response,
file-system activity is returned as a list of directory creations and file
writes.
-/

namespace Grabr

/-! ## Character-level helpers (ASCII semantics of the Python string/regex ops) -/

/-- Whitespace as recognised (on ASCII text) by Python's `str.strip`,
`str.isspace` and the regex class `\s`: TAB..CR (9-13), FS..US (28-31)
and SPACE (32). -/
def pyIsSpace (c : Char) : Bool :=
  (9 ≤ c.toNat && c.toNat ≤ 13) || (28 ≤ c.toNat && c.toNat ≤ 32)

/-- Word characters as recognised by the regex class `\w` on ASCII text:
`[a-zA-Z0-9_]`. -/
def isWordChar (c : Char) : Bool :=
  (97 ≤ c.toNat && c.toNat ≤ 122) || (65 ≤ c.toNat && c.toNat ≤ 90) ||
  (48 ≤ c.toNat && c.toNat ≤ 57) || c.toNat = 95

/-- Characters kept by `re.sub(r'[^\w\s-]', '', value)`: word characters,
whitespace and the hyphen. -/
def keepChar (c : Char) : Bool :=
  isWordChar c || pyIsSpace c || c = '-'

/-- Characters matched by the regex class `[-\s]` (hyphen or whitespace). -/
def isDashSpace (c : Char) : Bool :=
  c = '-' || pyIsSpace c

/-- ASCII lower-casing, the behaviour of Python `str.lower` on the ASCII
strings it is applied to in `slugify` (and, as a harmless approximation,
on URL strings in the extractor's `.lower()` checks). -/
def pyLowerChar (c : Char) : Char :=
  if 65 ≤ c.toNat && c.toNat ≤ 90 then Char.ofNat (c.toNat + 32) else c

/-- Python `str.lower` on a whole string. -/
def lowerStr (s : String) : String :=
  String.mk (s.data.map pyLowerChar)

/-- Turkish character substitutions of `slugify`'s `tr_map`.  The Python
code performs twelve successive `str.replace` calls whose keys are twelve
distinct single characters and whose values are plain ASCII letters never
occurring among the keys, so the sequence is equivalent to this single
character map. -/
def trChar (c : Char) : Char :=
  if c = 'ı' then 'i' else if c = 'İ' then 'i'
  else if c = 'ğ' then 'g' else if c = 'Ğ' then 'g'
  else if c = 'ü' then 'u' else if c = 'Ü' then 'u'
  else if c = 'ş' then 's' else if c = 'Ş' then 's'
  else if c = 'ö' then 'o' else if c = 'Ö' then 'o'
  else if c = 'ç' then 'c' else if c = 'Ç' then 'c'
  else c

/-- Modelled from Python's `unicodedata.normalize('NFKD', value)`, applied
character-wise.  ASCII code points have no decomposition (faithful to
Unicode).  For non-ASCII input we carry a table of common Latin-1 letters
decomposing into a base letter plus a combining mark; remaining code points
are kept as themselves.  Every non-ASCII code point the table leaves
untouched is discarded by the subsequent ASCII filter either way, so the
theorems below do not depend on the unmodelled corners of the Unicode
table. -/
def nfkdChar (c : Char) : List Char :=
  if c.toNat ≤ 127 then [c]
  else if c = 'à' then ['a', '̀'] else if c = 'á' then ['a', '́']
  else if c = 'â' then ['a', '̂'] else if c = 'ã' then ['a', '̃']
  else if c = 'ä' then ['a', '̈'] else if c = 'å' then ['a', '̊']
  else if c = 'è' then ['e', '̀'] else if c = 'é' then ['e', '́']
  else if c = 'ê' then ['e', '̂'] else if c = 'ë' then ['e', '̈']
  else if c = 'ì' then ['i', '̀'] else if c = 'í' then ['i', '́']
  else if c = 'î' then ['i', '̂'] else if c = 'ï' then ['i', '̈']
  else if c = 'ñ' then ['n', '̃']
  else if c = 'ò' then ['o', '̀'] else if c = 'ó' then ['o', '́']
  else if c = 'ô' then ['o', '̂'] else if c = 'õ' then ['o', '̃']
  else if c = 'ù' then ['u', '̀'] else if c = 'ú' then ['u', '́']
  else if c = 'û' then ['u', '̂'] else if c = 'ý' then ['y', '́']
  else if c = 'ÿ' then ['y', '̈']
  else [c]

/-- Python `str.strip()` on a character list: drop leading and trailing
whitespace. -/
def pyStrip (l : List Char) : List Char :=
  ((l.dropWhile pyIsSpace).reverse.dropWhile pyIsSpace).reverse

/-- Modelled from `re.sub(r'[-\s]+', '-', value)`: every maximal run of
hyphens/whitespace becomes a single hyphen. -/
def collapse : List Char → List Char
  | [] => []
  | [c] => if isDashSpace c then ['-'] else [c]
  | c :: d :: rest =>
    if isDashSpace c then
      if isDashSpace d then collapse (d :: rest)
      else '-' :: collapse (d :: rest)
    else c :: collapse (d :: rest)

/-! ## The slug normalizer (`MenuGrabber.slugify`) -/

/-- Character-list pipeline of `MenuGrabber.slugify`: Turkish
substitutions, NFKD decomposition, `encode('ascii','ignore')`,
`re.sub(r'[^\w\s-]','')`, `.strip().lower()`, `re.sub(r'[-\s]+','-')`. -/
def slugCore (l : List Char) : List Char :=
  collapse ((pyStrip ((((l.map trChar).flatMap nfkdChar).filter
    (fun c => c.toNat ≤ 127)).filter keepChar)).map pyLowerChar)

/-- Embedding of `MenuGrabber.slugify`. -/
def slugify (s : String) : String :=
  String.mk (slugCore s.data)

/-- Output alphabet claimed for `slugify`: ASCII lowercase letters, digits
and underscore. -/
def isLW (c : Char) : Bool :=
  (97 ≤ c.toNat && c.toNat ≤ 122) || (48 ≤ c.toNat && c.toNat ≤ 57) ||
  c.toNat = 95

/-- Output alphabet of `slugify` including the hyphen separator. -/
def isOutChar (c : Char) : Bool :=
  isLW c || c = '-'

/-- No two adjacent characters are both hyphen/whitespace. -/
def sepOk : List Char → Bool
  | [] => true
  | [_] => true
  | c :: d :: rest => !(isDashSpace c && isDashSpace d) && sepOk (d :: rest)

/-- No two adjacent hyphens. -/
def noDD : List Char → Bool
  | [] => true
  | [_] => true
  | c :: d :: rest => !(c = '-' && d = '-') && noDD (d :: rest)

/-- Well-formedness of a slug: only lowercase ASCII letters, digits,
underscore and hyphen, with no two consecutive hyphens. -/
def slugOk (l : List Char) : Bool :=
  l.all isOutChar && noDD l

/-! ## Generic list/string helpers used by the extractor model -/

/-- Holds when `pat` is a prefix of `s`. -/
def startsWithL : List Char → List Char → Bool
  | _, [] => true
  | [], _ :: _ => false
  | c :: s, p :: ps => c = p && startsWithL s ps

/-- Holds when `pat` is a suffix of `s`. -/
def endsWithL (s pat : List Char) : Bool :=
  startsWithL s.reverse pat.reverse

/-- Holds when `pat` occurs inside `s` (Python's `in`). -/
def containsL : List Char → List Char → Bool
  | [], pat => startsWithL [] pat
  | c :: rest, pat => startsWithL (c :: rest) pat || containsL rest pat

/-- Python `str.split(sep)` for a single-character separator. -/
def splitCh (sep : Char) : List Char → List (List Char)
  | [] => [[]]
  | c :: rest =>
    match splitCh sep rest with
    | [] => [[c]]
    | h :: t => if c = sep then [] :: h :: t else (c :: h) :: t

/-- Split a list at the first occurrence of `pat`, returning the parts
before and after it. -/
def splitAtSub (pat : List Char) : List Char → Option (List Char × List Char)
  | [] => if startsWithL [] pat then some ([], []) else none
  | c :: rest =>
    if startsWithL (c :: rest) pat then some ([], (c :: rest).drop pat.length)
    else
      match splitAtSub pat rest with
      | some (a, b) => some (c :: a, b)
      | none => none

/-! ## URL joining (model of `urllib.parse.urljoin` on the shapes this
program produces: an absolute page URL joined with either an absolute URL,
a scheme-relative, a host-relative or a document-relative reference) -/

/-- Scheme part of an absolute URL, with the trailing colon. -/
def schemeOf (base : String) : String :=
  match splitAtSub "://".data base.data with
  | some (sch, _) => String.mk sch ++ ":"
  | none => ""

/-- Origin (scheme plus authority) of an absolute URL. -/
def originOf (base : String) : String :=
  match splitAtSub "://".data base.data with
  | some (sch, rest) =>
    String.mk sch ++ "://" ++ String.mk (rest.takeWhile (fun c => c ≠ '/'))
  | none => base

/-- Directory part of an absolute URL (up to and including the last
slash of its path). -/
def baseDirOf (base : String) : String :=
  let d := String.mk ((base.data.reverse.dropWhile (fun c => c ≠ '/')).reverse)
  if endsWithL d.data "://".data then originOf base ++ "/" else d

/-- Modelled from `urllib.parse.urljoin(base, rel)` for the cases arising
here: an already-absolute `rel` is returned as is, `//host/x` keeps the
base's scheme, `/x` is resolved against the base's origin, and a relative
reference against the base's directory. -/
def urljoin (base rel : String) : String :=
  if rel = "" then base
  else if containsL rel.data "://".data then rel
  else if startsWithL rel.data "//".data then schemeOf base ++ rel
  else if startsWithL rel.data "/".data then originOf base ++ rel
  else baseDirOf base ++ rel

/-! ## HTML fragment model for `parse_menu_items`

A grid container (`div.ghostkit-grid-inner`) is modelled by the pieces the
extractor reads from it: the optional image column (`div.ghostkit-col-4`)
with its descendant `img` tags in document order and its first `picture`
tag, and the optional content column (`div.ghostkit-col-8`) with the
stripped text of its first heading (`h1`..`h6`, via
`get_text(strip=True)`) and first paragraph. -/

/-- An `img` tag: its CSS classes and its `data-src` / `src` attributes
(`none` = attribute absent). -/
structure Img where
  classes : List String
  dataSrc : Option String
  src : Option String
  deriving DecidableEq

/-- A `source` tag inside a `picture`: `data-srcset` / `srcset`. -/
structure SourceTag where
  dataSrcset : Option String
  srcset : Option String
  deriving DecidableEq

/-- A `picture` tag: its first `source` child, if any. -/
structure PictureTag where
  source : Option SourceTag
  deriving DecidableEq

/-- The image column: all descendant `img` tags in document order, and
the first `picture` tag, if any. -/
structure ImageCol where
  imgs : List Img
  picture : Option PictureTag
  deriving DecidableEq

/-- The content column: stripped text of the first heading (any level)
and of the first paragraph, `none` when the tag is absent. -/
structure ContentCol where
  heading : Option String
  para : Option String
  deriving DecidableEq

/-- A candidate grid container. -/
structure GridItem where
  imageCol : Option ImageCol
  contentCol : Option ContentCol
  deriving DecidableEq

/-- An extracted menu item, as appended by `parse_menu_items`. -/
structure MenuItem where
  title : String
  description : String
  image_url : Option String
  deriving DecidableEq

/-- Models `tag.get(a, '')` followed by `if not src: src = tag.get(b, '')`:
the first attribute's value if present and non-empty, else the second's
value if present, else the empty string. -/
def attrOr (a b : Option String) : String :=
  let s := a.getD ""
  if s = "" then b.getD "" else s

/-- The `src` candidate of an `img` tag: `data-src` preferred, `src` as
fallback. -/
def rawSrc (img : Img) : String :=
  attrOr img.dataSrc img.src

/-- Models `soup.find('img', class_=lambda x: x and 'wp-image-' in x)`'s
per-element test: some CSS class of the tag contains `wp-image-` (absent
class attribute, i.e. an empty class list, never matches, which is what
the `x and …` guard ensures in Python). -/
def hasWpImageClass (img : Img) : Bool :=
  img.classes.any (fun cl => containsL cl.data "wp-image-".data)

/-- The extension allow-list of the extractor. -/
def extsAllowed : List String :=
  [".jpg", ".jpeg", ".png", ".webp"]

/-- Models `any(url.lower().endswith(ext) for ext in [...])`. -/
def endsWithExt (u : String) : Bool :=
  extsAllowed.any (fun e => endsWithL (lowerStr u).data e.data)

/-- Models `srcset.split(',')` followed by `url.strip().split(' ')[0]`
on each part: the URL component of each srcset candidate. -/
def srcsetUrls (srcset : String) : List String :=
  (splitCh ',' srcset.data).map (fun part =>
    String.mk ((splitCh ' ' (pyStrip part)).headD []))

/-- Embedding of the image-URL resolution of `parse_menu_items`
(lines 106-155 of `grabr.py`), with the source's sequential
`img_url = None; if …; if not img_url: …; if not img_url: …` control
flow rendered as nested matches.  Returns the raw (pre-`urljoin`)
URL. -/
def resolveImageUrl (icol : ImageCol) : Option String :=
  match
    match icol.imgs.find? hasWpImageClass with
    | some img =>
      if rawSrc img ≠ "" && !startsWithL (rawSrc img).data "data:".data &&
          !containsL (lowerStr (rawSrc img)).data "svg".data
      then some (rawSrc img) else none
    | none => none
  with
  | some u => some u
  | none =>
    match
      match icol.picture with
      | some pic =>
        match pic.source with
        | some st =>
          if attrOr st.dataSrcset st.srcset ≠ "" then
            (srcsetUrls (attrOr st.dataSrcset st.srcset)).filter (fun u =>
              !startsWithL u.data "data:".data &&
              !containsL (lowerStr u).data "svg".data &&
              endsWithExt u) |>.head?
          else none
        | none => none
      | none => none
    with
    | some u => some u
    | none =>
      icol.imgs.findSome? (fun img =>
        if rawSrc img ≠ "" && !startsWithL (rawSrc img).data "data:".data &&
            !containsL (lowerStr (rawSrc img)).data "svg".data &&
            endsWithExt (rawSrc img)
        then some (rawSrc img) else none)

/-- Branch (a) of the fallback chain, as the spec words it: the first
image element carrying the size-variant (`wp-image-`) marker class,
preferring its lazy-load `data-src` attribute over its `src` attribute,
provided the value is non-empty, not a `data:` URL and not an svg. -/
def tryWpImage (icol : ImageCol) : Option String :=
  match icol.imgs.find? hasWpImageClass with
  | some img =>
    if rawSrc img ≠ "" && !startsWithL (rawSrc img).data "data:".data &&
        !containsL (lowerStr (rawSrc img)).data "svg".data
    then some (rawSrc img) else none
  | none => none

/-- Branch (b): the picture element's source-set attribute (`data-srcset`
preferred over `srcset`), taking the first candidate URL that is not a
`data:` or svg encoding and ends with an allowed extension. -/
def trySourceSet (icol : ImageCol) : Option String :=
  match icol.picture with
  | some pic =>
    match pic.source with
    | some st =>
      if attrOr st.dataSrcset st.srcset ≠ "" then
        (srcsetUrls (attrOr st.dataSrcset st.srcset)).filter (fun u =>
          !startsWithL u.data "data:".data &&
          !containsL (lowerStr u).data "svg".data &&
          endsWithExt u) |>.head?
      else none
    | none => none
  | none => none

/-- Branch (c): the first image element (any class) whose `data-src` (or,
failing that, `src`) is non-empty, not a `data:` URL, not an svg and ends
with an allowed extension. -/
def tryAnyImg (icol : ImageCol) : Option String :=
  icol.imgs.findSome? (fun img =>
    if rawSrc img ≠ "" && !startsWithL (rawSrc img).data "data:".data &&
        !containsL (lowerStr (rawSrc img)).data "svg".data &&
        endsWithExt (rawSrc img)
    then some (rawSrc img) else none)

/-- First-of-two for optional values (first success wins). -/
def firstSome (a b : Option String) : Option String :=
  match a with
  | some u => some u
  | none => b

/-- Embedding of one iteration of the `parse_menu_items` loop on a grid
container: column checks, title, description, image resolution,
absolutisation, and the emission condition
`if title and (description or img_url)`. -/
def parseGrid (pageUrl : String) (g : GridItem) : Option MenuItem :=
  match g.imageCol, g.contentCol with
  | some icol, some ccol =>
    match ccol.heading with
    | some title =>
      let description := ccol.para.getD ""
      let img_url := (resolveImageUrl icol).map (fun u => urljoin pageUrl u)
      if title ≠ "" && (description ≠ "" || img_url.isSome) then
        some ⟨title, description, img_url⟩
      else none
    | none => none
  | _, _ => none

/-- Embedding of `MenuGrabber.parse_menu_items` over the list of grid
containers found in the page. -/
def parse_menu_items (pageUrl : String) (grids : List GridItem) : List MenuItem :=
  grids.filterMap (parseGrid pageUrl)

/-! ## Downloader and persistence (`download_image`, `save_menu_item`, `run`) -/

/-- An HTTP response for an image request: declared content type, declared
content length, body chunks as yielded by `iter_content`, and whether an
exception interrupts the body stream after those chunks. -/
structure HttpResp where
  contentType : String
  contentLength : Nat
  chunks : List (List Nat)
  streamErr : Bool
  deriving DecidableEq

/-- Result of `session.get(url)` followed by `raise_for_status()`: either
a response, or an exception (transport error or non-success status). -/
inductive GetResult where
  | ok (r : HttpResp)
  | exn
  deriving DecidableEq

/-- Contents written to a file: a BOM-prefixed UTF-8 text (`utf-8-sig`)
or raw bytes. -/
inductive FileData where
  | textBOM (s : String)
  | binary (bytes : List Nat)
  deriving DecidableEq

/-- One file written to disk. -/
structure FileWrite where
  path : String
  data : FileData
  deriving DecidableEq

/-- POSIX `os.path.join` with a relative second component. -/
def pathJoin (a b : String) : String :=
  a ++ "/" ++ b

/-- Modelled from Python's `mimetypes.guess_extension` restricted to
common image media types; unknown types yield `none`. -/
def guess_extension (ct : String) : Option String :=
  if ct = "image/jpeg" then some ".jpg"
  else if ct = "image/png" then some ".png"
  else if ct = "image/gif" then some ".gif"
  else if ct = "image/webp" then some ".webp"
  else if ct = "image/svg+xml" then some ".svg"
  else if ct = "image/bmp" then some ".bmp"
  else if ct = "image/tiff" then some ".tiff"
  else none

/-- The body of `download_image`'s `try` block.  `Except.error w` models
an exception escaping the block with the file writes `w` performed before
it was raised; `Except.ok (res, w)` models normal completion returning
`res`.  An empty `url` returns `None` immediately; a failing GET raises;
a non-`image/` content type returns `None` without touching the disk;
otherwise the file is written from the streamed chunks and, if the stream
raises midway, the partial file remains. -/
def downloadImageTry (net : String → GetResult) (url folderPath title : String) :
    Except (List FileWrite) (Option String × List FileWrite) :=
  if url = "" then .ok (none, [])
  else
    match net url with
    | .exn => .error []
    | .ok r =>
      if !startsWithL r.contentType.data "image/".data then .ok (none, [])
      else
        let ext := (guess_extension r.contentType).getD ".jpg"
        let filename := slugify title ++ ext
        let filepath := pathJoin folderPath filename
        let w := [FileWrite.mk filepath (.binary r.chunks.flatten)]
        if r.streamErr then .error w else .ok (some filename, w)

/-- Embedding of `MenuGrabber.download_image`: the `try` body wrapped in
`except Exception: … return None`.  Returns the filename on success
(`None` on skip or failure) together with the file writes performed. -/
def download_image (net : String → GetResult) (url folderPath title : String) :
    Option String × List FileWrite :=
  match downloadImageTry net url folderPath title with
  | .ok res => res
  | .error w => (none, w)

/-- Text of the `<slug>_details.txt` record: the title line and, when the
description is non-empty, the description line. -/
def detailsText (item : MenuItem) : String :=
  "Başlık: " ++ item.title ++ "\n\n" ++
  (if item.description ≠ "" then "Açıklama: " ++ item.description ++ "\n" else "")

/-- Observable effects and results of `save_menu_item` for one item. -/
structure SaveResult where
  folderPath : String
  imageResult : Option String
  mkdirs : List String
  writes : List FileWrite
  deriving DecidableEq

/-- Embedding of `MenuGrabber.save_menu_item`: create the slug-named
subfolder, write the BOM-prefixed details file, then download the image
when `item['image_url']` is truthy (present and non-empty). -/
def save_menu_item (net : String → GetResult) (outputDir : String)
    (item : MenuItem) : SaveResult :=
  let folder_name := slugify item.title
  let folder_path := pathJoin outputDir folder_name
  let details_path := pathJoin folder_path (folder_name ++ "_details.txt")
  let detailsWrite := FileWrite.mk details_path (.textBOM (detailsText item))
  match item.image_url with
  | some u =>
    if u ≠ "" then
      let dl := download_image net u folder_path item.title
      SaveResult.mk folder_path dl.1 [folder_path] (detailsWrite :: dl.2)
    else SaveResult.mk folder_path none [folder_path] [detailsWrite]
  | none => SaveResult.mk folder_path none [folder_path] [detailsWrite]

/-- Embedding of the per-item loop of `MenuGrabber.run`
(`for item in menu_items: self.save_menu_item(item)`). -/
def runBatch (net : String → GetResult) (outputDir : String) :
    List MenuItem → List SaveResult
  | [] => []
  | item :: rest => save_menu_item net outputDir item :: runBatch net outputDir rest

/-! ## Concrete fixtures used by witness theorems -/

/-- A grid container with heading "Latte", no paragraph and no resolvable
image (empty image column). -/
def latteNoImgGrid : GridItem :=
  GridItem.mk (some (ImageCol.mk [] none)) (some (ContentCol.mk (some "Latte") none))

/-- A grid container with heading "Latte", paragraph "Hot milk coffee" and
a lazy-loaded image `/img/latte.jpg` carrying the `wp-image-` marker. -/
def latteImgGrid : GridItem :=
  GridItem.mk
    (some (ImageCol.mk [Img.mk ["wp-image-12"] (some "/img/latte.jpg") none] none))
    (some (ContentCol.mk (some "Latte") (some "Hot milk coffee")))

/-- A network where every GET raises. -/
def exnNet : String → GetResult := fun _ => GetResult.exn

/-- A network answering every GET with a small JPEG response. -/
def jpegNet : String → GetResult :=
  fun _ => GetResult.ok (HttpResp.mk "image/jpeg" 3 [[1], [2, 3]] false)

/-- A network answering every GET with an HTML page. -/
def htmlNet : String → GetResult :=
  fun _ => GetResult.ok (HttpResp.mk "text/html" 0 [[60, 104]] false)

/-- A two-item batch whose first item's download will be attempted. -/
def batchItems : List MenuItem :=
  [MenuItem.mk "Latte" "" (some "http://cafe.example/img/latte.jpg"),
   MenuItem.mk "Mocha" "Chocolate coffee" (some "http://cafe.example/img/mocha.jpg")]

example : slugify "Çörek Şiş" = "corek-sis" := by decide
example : slugify "  Hello,  World! " = "hello-world" := by decide
example : slugify "a - b" = "a-b" := by decide
example : urljoin "http://cafe.example/menu/page.html" "/img/latte.jpg" =
    "http://cafe.example/img/latte.jpg" := by decide
example : urljoin "http://cafe.example/menu/page.html" "img/latte.jpg" =
    "http://cafe.example/menu/img/latte.jpg" := by decide
example : srcsetUrls "a.jpg 1x, b.png 2x" = ["a.jpg", "b.png"] := by decide

/-! ## Character-level lemmas -/

theorem char_toNat_ofNat_of_lt {n : Nat} (h : n < 55296) : (Char.ofNat n).toNat = n := by
  have hv : n.isValidChar := Or.inl h
  simp [Char.ofNat, hv, Char.ofNatAux, Char.toNat, UInt32.toNat]

theorem pyLowerChar_eq_self {c : Char} (h : ¬(65 ≤ c.toNat ∧ c.toNat ≤ 90)) :
    pyLowerChar c = c := by
  have hb : (65 ≤ c.toNat && c.toNat ≤ 90) = false := by
    simp only [Bool.and_eq_false_iff, decide_eq_false_iff_not]
    omega
  simp [pyLowerChar, hb]

theorem pyLowerChar_toNat_of_upper {c : Char} (h1 : 65 ≤ c.toNat) (h2 : c.toNat ≤ 90) :
    (pyLowerChar c).toNat = c.toNat + 32 := by
  have hb : (65 ≤ c.toNat && c.toNat ≤ 90) = true := by
    simp only [Bool.and_eq_true, decide_eq_true_eq]
    omega
  simp only [pyLowerChar, hb, if_true]
  exact char_toNat_ofNat_of_lt (by omega)

theorem trChar_ascii {c : Char} (h : c.toNat ≤ 127) : trChar c = c := by
  have n1 : c ≠ 'ı' := by rintro rfl; revert h; decide
  have n2 : c ≠ 'İ' := by rintro rfl; revert h; decide
  have n3 : c ≠ 'ğ' := by rintro rfl; revert h; decide
  have n4 : c ≠ 'Ğ' := by rintro rfl; revert h; decide
  have n5 : c ≠ 'ü' := by rintro rfl; revert h; decide
  have n6 : c ≠ 'Ü' := by rintro rfl; revert h; decide
  have n7 : c ≠ 'ş' := by rintro rfl; revert h; decide
  have n8 : c ≠ 'Ş' := by rintro rfl; revert h; decide
  have n9 : c ≠ 'ö' := by rintro rfl; revert h; decide
  have n10 : c ≠ 'Ö' := by rintro rfl; revert h; decide
  have n11 : c ≠ 'ç' := by rintro rfl; revert h; decide
  have n12 : c ≠ 'Ç' := by rintro rfl; revert h; decide
  simp [trChar, n1, n2, n3, n4, n5, n6, n7, n8, n9, n10, n11, n12]

theorem nfkd_ascii {c : Char} (h : c.toNat ≤ 127) : nfkdChar c = [c] := by
  simp [nfkdChar, h]

/-! ## Generic list lemmas -/

theorem map_id_of_mem {α : Type} {f : α → α} :
    ∀ {l : List α}, (∀ c ∈ l, f c = c) → l.map f = l := by
  intro l
  induction l with
  | nil => intro _; rfl
  | cons a t ih =>
    intro h
    simp only [List.map_cons]
    rw [h a (List.mem_cons_self a t), ih (fun c hc => h c (List.mem_cons_of_mem a hc))]

theorem flatMap_id_of_mem {α : Type} {f : α → List α} :
    ∀ {l : List α}, (∀ c ∈ l, f c = [c]) → l.flatMap f = l := by
  intro l
  induction l with
  | nil => intro _; rfl
  | cons a t ih =>
    intro h
    simp only [List.flatMap_cons]
    rw [h a (List.mem_cons_self a t), ih (fun c hc => h c (List.mem_cons_of_mem a hc))]
    rfl

theorem dropWhile_eq_self_of_mem {α : Type} {p : α → Bool} {l : List α}
    (h : ∀ c ∈ l, p c = false) : l.dropWhile p = l := by
  cases l with
  | nil => rfl
  | cons a t => simp [List.dropWhile_cons, h a (List.mem_cons_self a t)]

theorem pyStrip_eq_self {l : List Char} (h : ∀ c ∈ l, pyIsSpace c = false) :
    pyStrip l = l := by
  unfold pyStrip
  rw [dropWhile_eq_self_of_mem h,
    dropWhile_eq_self_of_mem (fun c hc => h c (List.mem_reverse.mp hc)),
    List.reverse_reverse]

theorem mem_pyStrip {c : Char} {l : List Char} (h : c ∈ pyStrip l) : c ∈ l := by
  unfold pyStrip at h
  rw [List.mem_reverse] at h
  have h2 := (List.dropWhile_sublist _).mem h
  rw [List.mem_reverse] at h2
  exact (List.dropWhile_sublist _).mem h2

/-! ## Lemmas about `collapse` and `sepOk` -/

theorem collapse_cons_not {d : Char} (h : isDashSpace d = false) (t : List Char) :
    collapse (d :: t) = d :: collapse t := by
  cases t with
  | nil => simp [collapse, h]
  | cons e t' => simp [collapse, h]

theorem sepOk_cons_not {c : Char} (h : isDashSpace c = false) (l : List Char) :
    sepOk (c :: l) = sepOk l := by
  cases l with
  | nil => simp [sepOk]
  | cons d t => simp [sepOk, h]

theorem mem_collapse {c : Char} :
    ∀ {l : List Char}, c ∈ collapse l → c = '-' ∨ (c ∈ l ∧ isDashSpace c = false) := by
  intro l
  induction l with
  | nil => intro hc; simp [collapse] at hc
  | cons a t ih =>
    intro hc
    cases t with
    | nil =>
      by_cases ha : isDashSpace a = true
      · simp [collapse, ha] at hc
        exact Or.inl hc
      · have ha' : isDashSpace a = false := by simpa using ha
        simp [collapse, ha'] at hc
        subst hc
        exact Or.inr ⟨List.mem_cons_self _ _, ha'⟩
    | cons b t' =>
      by_cases ha : isDashSpace a = true
      · by_cases hb : isDashSpace b = true
        · rw [show collapse (a :: b :: t') = collapse (b :: t') from by
            simp [collapse, ha, hb]] at hc
          rcases ih hc with h | ⟨hm, hd⟩
          · exact Or.inl h
          · exact Or.inr ⟨List.mem_cons_of_mem _ hm, hd⟩
        · have hb' : isDashSpace b = false := by simpa using hb
          rw [show collapse (a :: b :: t') = '-' :: collapse (b :: t') from by
            simp [collapse, ha, hb']] at hc
          rcases List.mem_cons.mp hc with h | h
          · exact Or.inl h
          · rcases ih h with h2 | ⟨hm, hd⟩
            · exact Or.inl h2
            · exact Or.inr ⟨List.mem_cons_of_mem _ hm, hd⟩
      · have ha' : isDashSpace a = false := by simpa using ha
        rw [show collapse (a :: b :: t') = a :: collapse (b :: t') from by
          simp [collapse, ha']] at hc
        rcases List.mem_cons.mp hc with h | h
        · subst h
          exact Or.inr ⟨List.mem_cons_self _ _, ha'⟩
        · rcases ih h with h2 | ⟨hm, hd⟩
          · exact Or.inl h2
          · exact Or.inr ⟨List.mem_cons_of_mem _ hm, hd⟩

theorem sepOk_collapse : ∀ (l : List Char), sepOk (collapse l) = true := by
  intro l
  induction l with
  | nil => rfl
  | cons a t ih =>
    cases t with
    | nil =>
      by_cases ha : isDashSpace a = true
      · simp [collapse, ha, sepOk]
      · simp [collapse, (by simpa using ha : isDashSpace a = false), sepOk]
    | cons b t' =>
      by_cases ha : isDashSpace a = true
      · by_cases hb : isDashSpace b = true
        · simpa [collapse, ha, hb] using ih
        · have hb' : isDashSpace b = false := by simpa using hb
          have e1 : collapse (a :: b :: t') = '-' :: collapse (b :: t') := by
            simp [collapse, ha, hb']
          have e2 := collapse_cons_not hb' t'
          rw [e1, e2]
          have ih2 : sepOk (b :: collapse t') = true := by rw [← e2]; exact ih
          simp [sepOk, hb', ih2]
      · have ha' : isDashSpace a = false := by simpa using ha
        have e1 : collapse (a :: b :: t') = a :: collapse (b :: t') := by
          simp [collapse, ha']
        rw [e1, sepOk_cons_not ha']
        exact ih

theorem noDD_of_sepOk : ∀ {l : List Char}, sepOk l = true → noDD l = true := by
  intro l
  induction l with
  | nil => intro _; rfl
  | cons a t ih =>
    intro h
    cases t with
    | nil => rfl
    | cons b t' =>
      simp only [sepOk, Bool.and_eq_true, Bool.not_eq_true'] at h
      obtain ⟨h1, h2⟩ := h
      simp only [noDD, Bool.and_eq_true, Bool.not_eq_true']
      refine ⟨?_, ih h2⟩
      by_cases ea : a = '-'
      · by_cases eb : b = '-'
        · subst ea; subst eb; simp [isDashSpace] at h1
        · simp [eb]
      · simp [ea]

theorem collapse_eq_self :
    ∀ {l : List Char}, (∀ c ∈ l, pyIsSpace c = false) → sepOk l = true →
      collapse l = l := by
  intro l
  induction l with
  | nil => intro _ _; rfl
  | cons a t ih =>
    intro hs hsep
    cases t with
    | nil =>
      by_cases ha : isDashSpace a = true
      · have haa : a = '-' := by
          have hns := hs a (List.mem_cons_self _ _)
          simp [isDashSpace, hns] at ha
          exact ha
        simp [collapse, ha, haa]
      · simp [collapse, (by simpa using ha : isDashSpace a = false)]
    | cons b t' =>
      have hsb : ∀ c ∈ b :: t', pyIsSpace c = false :=
        fun c hc => hs c (List.mem_cons_of_mem _ hc)
      simp only [sepOk, Bool.and_eq_true, Bool.not_eq_true'] at hsep
      obtain ⟨h1, h2⟩ := hsep
      by_cases ha : isDashSpace a = true
      · have haa : a = '-' := by
          have hns := hs a (List.mem_cons_self _ _)
          simp [isDashSpace, hns] at ha
          exact ha
        have hb : isDashSpace b = false := by
          cases hdb : isDashSpace b with
          | false => rfl
          | true => rw [ha, hdb] at h1; simp at h1
        have e1 : collapse (a :: b :: t') = '-' :: collapse (b :: t') := by
          simp [collapse, ha, hb]
        rw [e1, ih hsb h2, haa]
      · have ha' : isDashSpace a = false := by simpa using ha
        have e1 : collapse (a :: b :: t') = a :: collapse (b :: t') := by
          simp [collapse, ha']
        rw [e1, ih hsb h2]

/-! ## Charset and idempotence of `slugify` -/

theorem out_of_keep {b : Char} (hk : keepChar b = true)
    (hnd : isDashSpace (pyLowerChar b) = false) : isOutChar (pyLowerChar b) = true := by
  simp only [keepChar, isWordChar, pyIsSpace, Bool.or_eq_true, Bool.and_eq_true,
    decide_eq_true_eq] at hk
  rcases hk with ((((h97 | h65) | h48) | h95) | (hs1 | hs2)) | hd
  · rw [pyLowerChar_eq_self (by omega)]
    simp only [isOutChar, isLW, Bool.or_eq_true, Bool.and_eq_true, decide_eq_true_eq]
    exact Or.inl (Or.inl (Or.inl h97))
  · have ht := pyLowerChar_toNat_of_upper h65.1 h65.2
    simp only [isOutChar, isLW, Bool.or_eq_true, Bool.and_eq_true, decide_eq_true_eq]
    refine Or.inl (Or.inl (Or.inl ⟨?_, ?_⟩)) <;> omega
  · rw [pyLowerChar_eq_self (by omega)]
    simp only [isOutChar, isLW, Bool.or_eq_true, Bool.and_eq_true, decide_eq_true_eq]
    exact Or.inl (Or.inl (Or.inr h48))
  · rw [pyLowerChar_eq_self (by omega)]
    simp only [isOutChar, isLW, Bool.or_eq_true, Bool.and_eq_true, decide_eq_true_eq]
    exact Or.inl (Or.inr h95)
  · rw [pyLowerChar_eq_self (by omega)] at hnd
    have hds : isDashSpace b = true := by
      simp only [isDashSpace, pyIsSpace, Bool.or_eq_true, Bool.and_eq_true,
        decide_eq_true_eq]
      exact Or.inr (Or.inl hs1)
    rw [hds] at hnd
    simp at hnd
  · rw [pyLowerChar_eq_self (by omega)] at hnd
    have hds : isDashSpace b = true := by
      simp only [isDashSpace, pyIsSpace, Bool.or_eq_true, Bool.and_eq_true,
        decide_eq_true_eq]
      exact Or.inr (Or.inr hs2)
    rw [hds] at hnd
    simp at hnd
  · subst hd
    decide

theorem slugCore_mem {l : List Char} : ∀ c ∈ slugCore l, isOutChar c = true := by
  intro c hc
  unfold slugCore at hc
  rcases mem_collapse hc with h | ⟨hm, hd⟩
  · subst h; decide
  · rcases List.mem_map.mp hm with ⟨b, hb, rfl⟩
    have hbk : keepChar b = true := (List.mem_filter.mp (mem_pyStrip hb)).2
    exact out_of_keep hbk hd

theorem slugCore_sepOk (l : List Char) : sepOk (slugCore l) = true :=
  sepOk_collapse _

theorem out_toNat_le {c : Char} (h : isOutChar c = true) : c.toNat ≤ 127 := by
  simp only [isOutChar, isLW, Bool.or_eq_true, Bool.and_eq_true, decide_eq_true_eq] at h
  rcases h with ((h | h) | h) | h
  · omega
  · omega
  · omega
  · subst h; decide

theorem out_not_space {c : Char} (h : isOutChar c = true) : pyIsSpace c = false := by
  simp only [isOutChar, isLW, Bool.or_eq_true, Bool.and_eq_true, decide_eq_true_eq] at h
  rcases h with ((h | h) | h) | h
  · have hn : ¬ pyIsSpace c = true := by
      simp only [pyIsSpace, Bool.or_eq_true, Bool.and_eq_true, decide_eq_true_eq]
      omega
    simpa using hn
  · have hn : ¬ pyIsSpace c = true := by
      simp only [pyIsSpace, Bool.or_eq_true, Bool.and_eq_true, decide_eq_true_eq]
      omega
    simpa using hn
  · have hn : ¬ pyIsSpace c = true := by
      simp only [pyIsSpace, Bool.or_eq_true, Bool.and_eq_true, decide_eq_true_eq]
      omega
    simpa using hn
  · subst h; decide

theorem out_keep {c : Char} (h : isOutChar c = true) : keepChar c = true := by
  simp only [isOutChar, isLW, Bool.or_eq_true, Bool.and_eq_true, decide_eq_true_eq] at h
  simp only [keepChar, isWordChar, pyIsSpace, Bool.or_eq_true, Bool.and_eq_true,
    decide_eq_true_eq]
  rcases h with ((h | h) | h) | h
  · exact Or.inl (Or.inl (Or.inl (Or.inl (Or.inl h))))
  · exact Or.inl (Or.inl (Or.inl (Or.inr h)))
  · exact Or.inl (Or.inl (Or.inr h))
  · exact Or.inr h

theorem out_lower_id {c : Char} (h : isOutChar c = true) : pyLowerChar c = c := by
  simp only [isOutChar, isLW, Bool.or_eq_true, Bool.and_eq_true, decide_eq_true_eq] at h
  rcases h with ((h | h) | h) | h
  · exact pyLowerChar_eq_self (by omega)
  · exact pyLowerChar_eq_self (by omega)
  · exact pyLowerChar_eq_self (by omega)
  · subst h; decide

theorem slugCore_eq_self {l : List Char} (hout : ∀ c ∈ l, isOutChar c = true)
    (hsep : sepOk l = true) : slugCore l = l := by
  have e1 : l.map trChar = l :=
    map_id_of_mem (fun c hc => trChar_ascii (out_toNat_le (hout c hc)))
  have e2 : l.flatMap nfkdChar = l :=
    flatMap_id_of_mem (fun c hc => nfkd_ascii (out_toNat_le (hout c hc)))
  have e3 : l.filter (fun c => decide (c.toNat ≤ 127)) = l :=
    List.filter_eq_self.mpr (fun c hc => by simpa using out_toNat_le (hout c hc))
  have e4 : l.filter keepChar = l :=
    List.filter_eq_self.mpr (fun c hc => out_keep (hout c hc))
  have e5 : pyStrip l = l :=
    pyStrip_eq_self (fun c hc => out_not_space (hout c hc))
  have e6 : l.map pyLowerChar = l :=
    map_id_of_mem (fun c hc => out_lower_id (hout c hc))
  have e7 : collapse l = l :=
    collapse_eq_self (fun c hc => out_not_space (hout c hc)) hsep
  unfold slugCore
  rw [e1, e2, e3, e4, e5, e6, e7]

/-! ## Claims about the slug normalizer -/

/-- C5: the slug normalizer `slugify` is idempotent: for every input
string `s`, `slugify (slugify s) = slugify s`. -/
theorem slugify_idempotent (s : String) : slugify (slugify s) = slugify s := by
  show String.mk (slugCore (slugCore s.data)) = String.mk (slugCore s.data)
  rw [slugCore_eq_self (fun c hc => slugCore_mem c hc) (slugCore_sepOk _)]

/-- C7: `slugify` maps the Turkish string "Çörek Şiş" to exactly
"corek-sis". -/
theorem slugify_turkish : slugify "Çörek Şiş" = "corek-sis" := by decide

/-- C10: for every input string, the output of `slugify` contains only
ASCII lowercase letters, digits, underscores and hyphens, and no two
consecutive hyphens. -/
theorem slugify_wellformed (s : String) : slugOk (slugify s).data = true := by
  show slugOk (slugCore s.data) = true
  unfold slugOk
  rw [Bool.and_eq_true]
  exact ⟨List.all_eq_true.mpr (fun c hc => slugCore_mem c hc),
    noDD_of_sepOk (slugCore_sepOk _)⟩

/-! ## Claims about the menu extractor -/

/-- C1: for every grid container, the image URL is resolved through the
ordered fallback chain (a) `wp-image-` marked image element (lazy-load
`data-src` preferred over `src`), (b) first acceptable candidate of the
picture element's source-set, (c) any image element's `data-src`/`src`
meeting the allow-list; the first branch yielding a URL wins and later
branches are not attempted. -/
theorem resolve_fallback_chain (icol : ImageCol) :
    resolveImageUrl icol = firstSome (tryWpImage icol)
      (firstSome (trySourceSet icol) (tryAnyImg icol))
    ∧ (∀ u, tryWpImage icol = some u → resolveImageUrl icol = some u)
    ∧ (tryWpImage icol = none → ∀ u, trySourceSet icol = some u →
        resolveImageUrl icol = some u)
    ∧ (tryWpImage icol = none → trySourceSet icol = none →
        resolveImageUrl icol = tryAnyImg icol) := by
  have he : resolveImageUrl icol = firstSome (tryWpImage icol)
      (firstSome (trySourceSet icol) (tryAnyImg icol)) := rfl
  refine ⟨he, ?_, ?_, ?_⟩
  · intro u hu
    rw [he, hu]
    rfl
  · intro h1 u hu
    rw [he, h1, hu]
    rfl
  · intro h1 h2
    rw [he, h1, h2]
    rfl

/-- C2: a candidate grid container (both columns present) yields a record
if and only if a non-empty title heading was found and either the
description is non-empty or an image URL was resolved. -/
theorem parseGrid_emits_iff (pageUrl : String) (g : GridItem) (icol : ImageCol)
    (ccol : ContentCol) (h1 : g.imageCol = some icol) (h2 : g.contentCol = some ccol) :
    (parseGrid pageUrl g).isSome = true ↔
      ((∃ t, ccol.heading = some t ∧ t ≠ "") ∧
        (ccol.para.getD "" ≠ "" ∨ (resolveImageUrl icol).isSome = true)) := by
  obtain ⟨gi, gc⟩ := g
  cases h1
  cases h2
  have hmap : (Option.map (fun u => urljoin pageUrl u) (resolveImageUrl icol)).isSome
      = (resolveImageUrl icol).isSome := by
    cases resolveImageUrl icol <;> rfl
  cases hh : ccol.heading with
  | none => simp [parseGrid, hh]
  | some title =>
    simp only [parseGrid, hh]
    by_cases ht : title = "" <;> by_cases hd : ccol.para.getD "" = "" <;>
      cases hr : (resolveImageUrl icol).isSome <;>
      simp [ht, hd, hr, hmap]

/-- Witness for C2: the "Latte" container with no paragraph and no
resolvable image yields no record. -/
theorem parseGrid_emits_iff_witness :
    (parseGrid "http://cafe.example/menu" latteNoImgGrid).isSome = false := by
  have h := parseGrid_emits_iff "http://cafe.example/menu" latteNoImgGrid
    (ImageCol.mk [] none) (ContentCol.mk (some "Latte") none) rfl rfl
  rw [← Bool.not_eq_true]
  intro ht
  have hr := (h.mp ht).2
  revert hr
  decide

theorem mem_of_head_eq_some {α : Type} {l : List α} {a : α}
    (h : l.head? = some a) : a ∈ l := by
  cases l with
  | nil => simp at h
  | cons b t =>
    simp only [List.head?_cons, Option.some_inj] at h
    subst h
    exact List.mem_cons_self _ _

/-- Branch (a) never yields a `data:` URL. -/
theorem tryWpImage_not_data {icol : ImageCol} {u : String}
    (h : tryWpImage icol = some u) : startsWithL u.data "data:".data = false := by
  unfold tryWpImage at h
  cases hf : icol.imgs.find? hasWpImageClass with
  | none => rw [hf] at h; exact absurd h (by simp)
  | some img =>
    rw [hf] at h
    split at h
    next img' hc =>
      rw [Option.some_inj] at hc
      subst hc
      split at h
      next hcond =>
        rw [Option.some_inj] at h
        subst h
        simp only [Bool.and_eq_true, Bool.not_eq_true'] at hcond
        exact hcond.1.2
      next hcond => exact absurd h (by simp)
    next hc => exact absurd h (by simp)

/-- Branch (b) never yields a `data:` URL. -/
theorem trySourceSet_not_data {icol : ImageCol} {u : String}
    (h : trySourceSet icol = some u) : startsWithL u.data "data:".data = false := by
  obtain ⟨imgs, pict⟩ := icol
  cases pict with
  | none => exact absurd h (by simp [trySourceSet])
  | some pic =>
    obtain ⟨src?⟩ := pic
    cases src? with
    | none => exact absurd h (by simp [trySourceSet])
    | some st =>
      simp only [trySourceSet] at h
      split at h
      next hne =>
        have ha := mem_of_head_eq_some h
        have := (List.mem_filter.mp ha).2
        simp only [Bool.and_eq_true, Bool.not_eq_true'] at this
        exact this.1.1
      next hne => exact absurd h (by simp)

/-- Branch (c) never yields a `data:` URL. -/
theorem tryAnyImg_not_data {icol : ImageCol} {u : String}
    (h : tryAnyImg icol = some u) : startsWithL u.data "data:".data = false := by
  unfold tryAnyImg at h
  obtain ⟨img, _, hi⟩ := List.exists_of_findSome?_eq_some h
  revert hi
  split
  next hc =>
    intro hi
    rw [Option.some_inj] at hi
    subst hi
    simp only [Bool.and_eq_true, Bool.not_eq_true'] at hc
    exact hc.1.1.2
  next hc => intro hi; exact absurd hi (by simp)

/-- The resolved raw URL never starts with `data:`. -/
theorem resolveImageUrl_not_data {icol : ImageCol} {u : String}
    (h : resolveImageUrl icol = some u) : startsWithL u.data "data:".data = false := by
  have he : resolveImageUrl icol = firstSome (tryWpImage icol)
      (firstSome (trySourceSet icol) (tryAnyImg icol)) := rfl
  rw [he] at h
  unfold firstSome at h
  cases h1 : tryWpImage icol with
  | some v =>
    rw [h1] at h
    rw [Option.some_inj] at h
    subst h
    exact tryWpImage_not_data h1
  | none =>
    rw [h1] at h
    cases h2 : trySourceSet icol with
    | some v =>
      rw [h2] at h
      rw [Option.some_inj] at h
      subst h
      exact trySourceSet_not_data h2
    | none =>
      rw [h2] at h
      exact tryAnyImg_not_data h

/-- C6: every record emitted by `parse_menu_items` with a resolved image
URL took it from an attribute value that does not start with `data:`; the
emitted URL is that raw value resolved against the page URL. -/
theorem parse_no_data_urls (pageUrl : String) (grids : List GridItem)
    (item : MenuItem) (hmem : item ∈ parse_menu_items pageUrl grids)
    (u : String) (hu : item.image_url = some u) :
    ∃ g ∈ grids, ∃ icol raw, g.imageCol = some icol ∧
      resolveImageUrl icol = some raw ∧
      startsWithL raw.data "data:".data = false ∧ u = urljoin pageUrl raw := by
  obtain ⟨g, hg, hpg⟩ := List.mem_filterMap.mp hmem
  refine ⟨g, hg, ?_⟩
  obtain ⟨gi, gc⟩ := g
  cases gi with
  | none => exact absurd hpg (by simp [parseGrid])
  | some icol =>
    cases gc with
    | none => exact absurd hpg (by simp [parseGrid])
    | some ccol =>
      simp only [parseGrid] at hpg
      cases hh : ccol.heading with
      | none => rw [hh] at hpg; exact absurd hpg (by simp)
      | some title =>
        rw [hh] at hpg
        split at hpg
        next t' hc =>
          rw [Option.some_inj] at hc
          subst hc
          split at hpg
          next hcond =>
            rw [Option.some_inj] at hpg
            subst hpg
            have hu' : Option.map (fun v => urljoin pageUrl v) (resolveImageUrl icol)
                = some u := hu
            obtain ⟨raw, hraw, hju⟩ := Option.map_eq_some'.mp hu'
            exact ⟨icol, raw, rfl, hraw, resolveImageUrl_not_data hraw, hju.symm⟩
          next hcond => exact absurd hpg (by simp)
        next hc => exact absurd hpg (by simp)

/-- Witness for C6: a concrete container whose lazy-load attribute is
`/img/latte.jpg`; the emitted record's URL derives from that non-`data:`
raw value. -/
theorem parse_no_data_urls_witness :
    ∃ g ∈ [latteImgGrid], ∃ icol raw, g.imageCol = some icol ∧
      resolveImageUrl icol = some raw ∧
      startsWithL raw.data "data:".data = false ∧
      "http://cafe.example/img/latte.jpg" = urljoin "http://cafe.example/menu" raw :=
  parse_no_data_urls "http://cafe.example/menu" [latteImgGrid]
    (MenuItem.mk "Latte" "Hot milk coffee" (some "http://cafe.example/img/latte.jpg"))
    (by decide) "http://cafe.example/img/latte.jpg" rfl

/-! ## Claims about the downloader and the persistence writer -/

/-- C4: when the response's declared content type does not begin with
`image/`, `download_image` writes no file and returns `None` instead of
raising. -/
theorem download_image_rejects_non_image (net : String → GetResult)
    (url folderPath title : String) (r : HttpResp) (hn : net url = GetResult.ok r)
    (hct : startsWithL r.contentType.data "image/".data = false) :
    download_image net url folderPath title = (none, []) := by
  by_cases hu : url = ""
  · simp [download_image, downloadImageTry, hu]
  · simp [download_image, downloadImageTry, hu, hn, hct]

/-- Witness for C4: a `text/html` response is skipped with no file
written. -/
theorem download_image_rejects_non_image_witness :
    download_image htmlNet "http://cafe.example/img/latte.jpg"
      "./menu_items/latte" "Latte" = (none, []) :=
  download_image_rejects_non_image htmlNet "http://cafe.example/img/latte.jpg"
    "./menu_items/latte" "Latte" (HttpResp.mk "text/html" 0 [[60, 104]] false)
    rfl (by decide)

/-- C8: for every accepted download, the written filename is the slugified
title followed by the extension guessed from the declared content type,
`.jpg` when none can be guessed. -/
theorem download_image_filename (net : String → GetResult)
    (url folderPath title : String) (r : HttpResp) (hn : net url = GetResult.ok r)
    (fn : String) (w : List FileWrite)
    (hd : download_image net url folderPath title = (some fn, w)) :
    fn = slugify title ++ ((guess_extension r.contentType).getD ".jpg") := by
  by_cases hu : url = ""
  · simp [download_image, downloadImageTry, hu] at hd
  · cases hct : startsWithL r.contentType.data "image/".data with
    | false => simp [download_image, downloadImageTry, hu, hn, hct] at hd
    | true =>
      cases hse : r.streamErr with
      | true => simp [download_image, downloadImageTry, hu, hn, hct, hse] at hd
      | false =>
        simp [download_image, downloadImageTry, hu, hn, hct, hse] at hd
        exact hd.1.symm

/-- Witness for C8: a JPEG response for the title "Latte" yields the
filename `latte.jpg`. -/
theorem download_image_filename_witness :
    "latte.jpg" = slugify "Latte" ++ ((guess_extension "image/jpeg").getD ".jpg") :=
  download_image_filename jpegNet "http://cafe.example/img/latte.jpg"
    "./menu_items/latte" "Latte" (HttpResp.mk "image/jpeg" 3 [[1], [2, 3]] false)
    rfl "latte.jpg"
    [FileWrite.mk "./menu_items/latte/latte.jpg" (FileData.binary [1, 2, 3])]
    (by decide)

/-- C9: `save_menu_item` creates the slug-named subfolder and writes, as
its first file operation (before and regardless of the image download),
the BOM-prefixed `<slug>_details.txt` containing the title and, exactly
when the description is non-empty, the description. -/
theorem save_menu_item_details (net : String → GetResult) (outputDir : String)
    (item : MenuItem) :
    (save_menu_item net outputDir item).mkdirs
        = [pathJoin outputDir (slugify item.title)]
    ∧ (save_menu_item net outputDir item).writes.head? = some (FileWrite.mk
        (pathJoin (pathJoin outputDir (slugify item.title))
          (slugify item.title ++ "_details.txt"))
        (FileData.textBOM ("Başlık: " ++ item.title ++ "\n\n" ++
          (if item.description ≠ "" then "Açıklama: " ++ item.description ++ "\n"
           else "")))) := by
  obtain ⟨t, d, iu⟩ := item
  cases iu with
  | none => exact ⟨rfl, rfl⟩
  | some u =>
    by_cases hu : u = ""
    · simp [save_menu_item, detailsText, hu]
    · simp [save_menu_item, detailsText, hu]

/-- C3: if the download of item `K` fails (its `download_image` body
raises), the batch loop of `run` still processes every item: the result
list has one entry per item, each entry is the per-item result of
`save_menu_item` for that item alone, and item `K`'s failure is reported
as `imageResult = none`. -/
theorem runBatch_isolation (net : String → GetResult) (outputDir : String)
    (items : List MenuItem) (K : Nat) (hK : K < items.length)
    (u : String) (w : List FileWrite)
    (hu : (items.get ⟨K, hK⟩).image_url = some u) (hne : u ≠ "")
    (hfail : downloadImageTry net u
        (pathJoin outputDir (slugify (items.get ⟨K, hK⟩).title))
        (items.get ⟨K, hK⟩).title = .error w) :
    (runBatch net outputDir items).length = items.length
    ∧ (∀ j : Nat, (runBatch net outputDir items)[j]?
        = (items[j]?).map (save_menu_item net outputDir))
    ∧ (save_menu_item net outputDir (items.get ⟨K, hK⟩)).imageResult = none := by
  have hmap : ∀ (l : List MenuItem),
      runBatch net outputDir l = l.map (save_menu_item net outputDir) := by
    intro l
    induction l with
    | nil => rfl
    | cons a tl ih => simp [runBatch, ih]
  refine ⟨by rw [hmap]; exact List.length_map _ _,
    fun j => by rw [hmap]; exact List.getElem?_map _ _ _, ?_⟩
  have hu' := hu
  have hfail' := hfail
  simp only [List.get_eq_getElem] at hu' hfail'
  simp [save_menu_item, hu', hne, download_image, hfail']

/-- Witness for C3: with a network that raises on every GET, a two-item
batch still yields a result for each item, and item 0's failed download is
reported as `none`. -/
theorem runBatch_isolation_witness :
    (runBatch exnNet "./menu_items" batchItems).length = batchItems.length
    ∧ (∀ j : Nat, (runBatch exnNet "./menu_items" batchItems)[j]?
        = (batchItems[j]?).map (save_menu_item exnNet "./menu_items"))
    ∧ (save_menu_item exnNet "./menu_items"
        (batchItems.get ⟨0, by decide⟩)).imageResult = none :=
  runBatch_isolation exnNet "./menu_items" batchItems 0 (by decide)
    "http://cafe.example/img/latte.jpg" [] rfl (by decide) rfl

end Grabr
